import Mathlib

/-!
# Verification of the telegram_crypto_bot monitoring core

A shallow embedding, in Lean 4, of the alert / strategy / sniper engine of the
`telegram_crypto_bot` repository, together with proofs of the behavioural
properties stated in its specification.

Conventions of the embedding:
* Python `float` values are modelled as `ℚ` (exact rational arithmetic).
* `datetime` instants are modelled as integer timestamps (seconds); the wall
  clock read by a Python call (`time.time()`, `datetime.now()`) is passed as an
  explicit argument.  For `PriceAlert` creation the clock is carried in
  milliseconds so that `int(time.time())` (second resolution) is `ms / 1000`.
* `datetime.isoformat` / `datetime.fromisoformat` form an exact round trip, so
  a serialized timestamp is modelled by the timestamp value itself.
* Python `Optional[...]` values are `Option`; Python lists are `List`.
* Mutating methods are embedded as functions returning the updated object.
-/

/-! ## Python string helpers -/

/-- Python `str.lower()`: character-wise lowering (the token data in this
repository is ASCII, matching `Char.toLower`). -/
def pyLower (s : String) : String := ⟨s.data.map Char.toLower⟩

/-- Python's substring test `sub in s`. -/
def strContains (s sub : String) : Bool := decide (sub.data <:+: s.data)

theorem Char.toLower_toLower (c : Char) : c.toLower.toLower = c.toLower := by
  unfold Char.toLower
  simp only []
  by_cases h : c.toNat ≥ 65 ∧ c.toNat ≤ 90
  · rw [if_pos h]
    obtain ⟨h65, h90⟩ := h
    interval_cases hn : c.toNat <;> decide
  · rw [if_neg h, if_neg h]

theorem pyLower_pyLower (s : String) : pyLower (pyLower s) = pyLower s := by
  unfold pyLower
  simp only [List.map_map]
  congr 1
  apply List.map_congr_left
  intro c _
  exact Char.toLower_toLower c

/-! ## Price alerts (`utils/price_alerts.py`)

`PriceAlert.__init__` lowercases `exchange` and `condition`, generates
`alert_id` as `f"{user_id}_{symbol}_{exchange}_{int(time.time())}"` when the
given id is falsy (`None` or the empty string), sets `created_at` to the
current instant and `triggered` to `False`. -/

@[ext]
structure PriceAlert where
  user_id : Int
  symbol : String
  exchange : String
  target_price : ℚ
  condition : String
  alert_id : String
  created_at : Nat
  triggered : Bool
deriving Repr, DecidableEq

/-- The f-string `f"{user_id}_{symbol}_{exchange}_{int(time.time())}"`.  Note
that it interpolates the raw constructor arguments (the local variables), not
the lowercased attribute. -/
def PriceAlert.genId (user_id : Int) (symbol exchange : String) (tsec : Nat) : String :=
  toString user_id ++ "_" ++ symbol ++ "_" ++ exchange ++ "_" ++ toString tsec

/-- `PriceAlert.__init__`; `ms` is the clock in milliseconds, so the Python
`int(time.time())` is `ms / 1000` and `datetime.now()` is modelled by `ms`. -/
def PriceAlert.init (user_id : Int) (symbol exchange : String) (target_price : ℚ)
    (condition : String) (alert_id : Option String) (ms : Nat) : PriceAlert :=
  { user_id := user_id
    symbol := symbol
    exchange := pyLower exchange
    target_price := target_price
    condition := pyLower condition
    alert_id :=
      match alert_id with
      | some s => if s = "" then PriceAlert.genId user_id symbol exchange (ms / 1000) else s
      | none => PriceAlert.genId user_id symbol exchange (ms / 1000)
    created_at := ms
    triggered := false }

/-- `PriceAlert.is_triggered`. -/
def PriceAlert.is_triggered (a : PriceAlert) (current_price : ℚ) : Bool :=
  if a.condition = "above" then decide (current_price ≥ a.target_price)
  else if a.condition = "below" then decide (current_price ≤ a.target_price)
  else false

/-- The dictionary produced by `PriceAlert.to_dict` (ISO timestamps are
modelled by their instants, see the header). -/
structure PriceAlertDict where
  alert_id : String
  user_id : Int
  symbol : String
  exchange : String
  target_price : ℚ
  condition : String
  created_at : Nat
  triggered : Bool
deriving Repr, DecidableEq

/-- `PriceAlert.to_dict`. -/
def PriceAlert.to_dict (a : PriceAlert) : PriceAlertDict :=
  { alert_id := a.alert_id
    user_id := a.user_id
    symbol := a.symbol
    exchange := a.exchange
    target_price := a.target_price
    condition := a.condition
    created_at := a.created_at
    triggered := a.triggered }

/-- `PriceAlert.from_dict`: calls the constructor (which re-lowercases and
re-applies the falsy-id fallback) and then overwrites `created_at` and
`triggered` from the dictionary.  `ms` is the clock at deserialization time. -/
def PriceAlert.from_dict (d : PriceAlertDict) (ms : Nat) : PriceAlert :=
  let a := PriceAlert.init d.user_id d.symbol d.exchange d.target_price d.condition
    (some d.alert_id) ms
  { a with created_at := d.created_at, triggered := d.triggered }

theorem PriceAlert.genId_ne_empty (u : Int) (s e : String) (t : Nat) :
    PriceAlert.genId u s e t ≠ "" := by
  intro h
  have hlen := congrArg String.length h
  simp only [PriceAlert.genId, String.length_append] at hlen
  have h1 : ("_" : String).length = 1 := rfl
  simp [h1] at hlen

/-- Claim C1: for condition `above`, `is_triggered(price)` is true iff
`price ≥ target_price`; for condition `below`, true iff `price ≤ target_price`. -/
theorem C1_is_triggered_iff (a : PriceAlert) (p : ℚ) :
    (a.condition = "above" → (a.is_triggered p = true ↔ p ≥ a.target_price)) ∧
    (a.condition = "below" → (a.is_triggered p = true ↔ p ≤ a.target_price)) := by
  constructor <;> intro h <;> simp [PriceAlert.is_triggered, h]

/-- Witness for C1 on a concrete alert: an `above`-50000 alert triggers at
60000, and a `below`-50000 alert triggers at 40000. -/
theorem C1_is_triggered_iff_witness :
    ((PriceAlert.init 7 "BTC/USDT" "btcc" 50000 "above" none 1000).is_triggered 60000 = true
      ↔ (60000 : ℚ) ≥ 50000) ∧
    ((PriceAlert.init 7 "BTC/USDT" "btcc" 50000 "below" none 1000).is_triggered 40000 = true
      ↔ (40000 : ℚ) ≤ 50000) :=
  ⟨(C1_is_triggered_iff (PriceAlert.init 7 "BTC/USDT" "btcc" 50000 "above" none 1000) 60000).1
      (by decide),
   (C1_is_triggered_iff (PriceAlert.init 7 "BTC/USDT" "btcc" 50000 "below" none 1000) 40000).2
      (by decide)⟩

theorem PriceAlert.from_dict_to_dict_of_normal (a : PriceAlert) (ms' : Nat)
    (hex : pyLower a.exchange = a.exchange) (hcond : pyLower a.condition = a.condition)
    (hid : a.alert_id ≠ "") :
    PriceAlert.from_dict (PriceAlert.to_dict a) ms' = a := by
  obtain ⟨u, sym, ex, tp, cond, aid, ca, tr⟩ := a
  simp only [PriceAlert.exchange, PriceAlert.condition, PriceAlert.alert_id] at hex hcond hid
  simp [PriceAlert.from_dict, PriceAlert.to_dict, PriceAlert.init, hex, hcond, hid]

/-- Claim C7: serializing a `PriceAlert` with `to_dict` and deserializing with
`from_dict` yields an alert equal field for field to the original, for every
alert built by the constructor (every alert of the registry is) and every
deserialization instant. -/
theorem C7_to_dict_from_dict_roundtrip (u : Int) (sym ex : String) (tp : ℚ)
    (cond : String) (aid : Option String) (ms ms' : Nat) :
    PriceAlert.from_dict (PriceAlert.to_dict (PriceAlert.init u sym ex tp cond aid ms)) ms'
      = PriceAlert.init u sym ex tp cond aid ms := by
  have hid : (PriceAlert.init u sym ex tp cond aid ms).alert_id ≠ "" := by
    cases aid with
    | none => exact PriceAlert.genId_ne_empty u sym ex (ms / 1000)
    | some s =>
      by_cases hs : s = "" <;>
        simp [PriceAlert.init, hs, PriceAlert.genId_ne_empty u sym ex (ms / 1000)]
  exact PriceAlert.from_dict_to_dict_of_normal _ ms' (pyLower_pyLower ex) (pyLower_pyLower cond)
    hid

/-- Counterexample to claim C9: two distinct creations (clock instants 100.3 s
and 100.8 s, i.e. 100300 ms and 100800 ms) by the same user for the same symbol
and exchange, both without an explicit `alert_id`, receive the identical
generated id, because `int(time.time())` has one-second resolution. -/
theorem C9_counterexample :
    (100300 : Nat) ≠ 100800 ∧
    (PriceAlert.init 1 "BTC/USDT" "btcc" 50000 "above" none 100300).alert_id
      = (PriceAlert.init 1 "BTC/USDT" "btcc" 50000 "above" none 100800).alert_id := by
  constructor
  · decide
  · rfl

/-- Claim C9 as amended: the generated id is the deterministic string
`user_symbol_exchange_second`, so it is not unique across creations: any two
creations without an explicit `alert_id` that share `user_id`, `symbol`,
`exchange` and the integer creation second receive the same id; ids can only
differ when those four components produce different strings. -/
theorem C9_amended_same_second_collision (u : Int) (sym ex : String) (tp₁ tp₂ : ℚ)
    (cond₁ cond₂ : String) (ms₁ ms₂ : Nat) (h : ms₁ / 1000 = ms₂ / 1000) :
    (PriceAlert.init u sym ex tp₁ cond₁ none ms₁).alert_id
      = (PriceAlert.init u sym ex tp₂ cond₂ none ms₂).alert_id := by
  simp [PriceAlert.init, PriceAlert.genId, h]

/-- Witness for the amended C9 at concrete inputs: creations at 100300 ms and
100999 ms fall in second 100 and collide. -/
theorem C9_amended_same_second_collision_witness :
    (PriceAlert.init 1 "PEPE" "coinbase" 2 "above" none 100300).alert_id
      = (PriceAlert.init 1 "PEPE" "coinbase" 3 "below" none 100999).alert_id :=
  C9_amended_same_second_collision 1 "PEPE" "coinbase" 2 3 "above" "below" 100300 100999
    (by decide)

/-! ## Meme tokens and sniper alerts (`utils/meme_sniper.py`) -/

/-- An entry of `MemeToken.price_history`. -/
structure PricePoint where
  timestamp : Int
  price : ℚ
  price_change_24h : Option ℚ
deriving Repr, DecidableEq

/-- An entry of `MemeToken.volume_history`. -/
structure VolumePoint where
  timestamp : Int
  volume : ℚ
deriving Repr, DecidableEq

structure MemeToken where
  token_id : String
  symbol : String
  name : String
  address : Option String
  chain : Option String
  price : Option ℚ
  market_cap : Option ℚ
  volume_24h : Option ℚ
  price_change_24h : Option ℚ
  created_at : Int
  last_updated : Int
  price_history : List PricePoint
  volume_history : List VolumePoint
deriving Repr, DecidableEq

/-- The `history[-100:]` trimming applied in `update_price` under
`if len(history) > 100` ("Keep only the last 100 points"). -/
def keepLast100 {α : Type} (l : List α) : List α :=
  if l.length > 100 then l.drop (l.length - 100) else l

/-- `MemeToken.update_price`; `now` is the single `datetime.now()` read at the
top of the method, used for both history entries and `last_updated`. -/
def MemeToken.update_price (t : MemeToken) (now : Int) (price : ℚ)
    (market_cap volume_24h price_change_24h : Option ℚ) : MemeToken :=
  let ph := keepLast100 (t.price_history ++ [⟨now, price, price_change_24h⟩])
  let vh := match volume_24h with
    | some v => keepLast100 (t.volume_history ++ [⟨now, v⟩])
    | none => t.volume_history
  { t with
    price_history := ph
    volume_history := vh
    price := some price
    market_cap := match market_cap with | some v => some v | none => t.market_cap
    volume_24h := match volume_24h with | some v => some v | none => t.volume_24h
    price_change_24h :=
      match price_change_24h with | some v => some v | none => t.price_change_24h
    last_updated := now }

/-- `MemeToken.calculate_price_change`.  In the live objects `self.price` is
always set when the history is non-empty (both are written only by
`update_price`), so the `getD 0` default for the current price is never
observable on the guarded path. -/
def MemeToken.calculate_price_change (t : MemeToken) (now : Int) (minutes : Int) : Option ℚ :=
  if t.price_history.length < 2 then none
  else
    let current_price := t.price.getD 0
    let cutoff := now - minutes * 60
    let historical := t.price_history.filter (fun p => decide (p.timestamp < cutoff))
    match historical.getLast? with
    | none => none
    | some h => if h.price = 0 then none else some ((current_price - h.price) / h.price * 100)

/-- `MemeToken.calculate_volume_change` (same shape over `volume_history`). -/
def MemeToken.calculate_volume_change (t : MemeToken) (now : Int) (minutes : Int) : Option ℚ :=
  if t.volume_history.length < 2 then none
  else
    let current_volume := t.volume_24h.getD 0
    let cutoff := now - minutes * 60
    let historical := t.volume_history.filter (fun v => decide (v.timestamp < cutoff))
    match historical.getLast? with
    | none => none
    | some h =>
      if h.volume = 0 then none else some ((current_volume - h.volume) / h.volume * 100)

structure MemeSniperAlert where
  user_id : Int
  alert_id : String
  min_price_change : Option ℚ
  min_volume_change : Option ℚ
  max_market_cap : Option ℚ
  chains : List String
  keywords : List String
  exclude_keywords : List String
  auto_buy : Bool
  auto_buy_amount : Option ℚ
  created_at : Int
  triggered_tokens : List String
deriving Repr, DecidableEq

/-- `MemeSniperAlert.matches_token`: the criteria chain, each unmet criterion
returning `False`; `now` is the clock read inside the two
`calculate_*_change(minutes=5)` calls. -/
def MemeSniperAlert.matches_token (a : MemeSniperAlert) (t : MemeToken) (now : Int) : Bool :=
  if t.token_id ∈ a.triggered_tokens then false
  else if (!a.chains.isEmpty) &&
      (match t.chain with
        | some c => !((a.chains.map pyLower).contains (pyLower c))
        | none => false) then false
  else if (match a.max_market_cap, t.market_cap with
        | some mx, some mc => decide (mc > mx)
        | _, _ => false) then false
  else if (!a.keywords.isEmpty) &&
      !(a.keywords.any fun k => strContains (pyLower (t.name ++ " " ++ t.symbol)) (pyLower k))
      then false
  else if (!a.exclude_keywords.isEmpty) &&
      (a.exclude_keywords.any fun k => strContains (pyLower (t.name ++ " " ++ t.symbol)) (pyLower k))
      then false
  else if (match a.min_price_change with
        | some m =>
          match t.calculate_price_change now 5 with
          | none => true
          | some pc => decide (pc < m)
        | none => false) then false
  else if (match a.min_volume_change with
        | some m =>
          match t.calculate_volume_change now 5 with
          | none => true
          | some vc => decide (vc < m)
        | none => false) then false
  else true

/-- `MemeSniperAlert.mark_token_triggered` (append if not present). -/
def MemeSniperAlert.mark_token_triggered (a : MemeSniperAlert) (token_id : String) :
    MemeSniperAlert :=
  if token_id ∈ a.triggered_tokens then a
  else { a with triggered_tokens := a.triggered_tokens ++ [token_id] }

theorem MemeSniperAlert.mem_mark_self (a : MemeSniperAlert) (tid : String) :
    tid ∈ (a.mark_token_triggered tid).triggered_tokens := by
  unfold MemeSniperAlert.mark_token_triggered
  split
  · assumption
  · simp

theorem MemeSniperAlert.mem_mark_mono (a : MemeSniperAlert) (x tid : String)
    (h : tid ∈ a.triggered_tokens) : tid ∈ (a.mark_token_triggered x).triggered_tokens := by
  unfold MemeSniperAlert.mark_token_triggered
  split
  · exact h
  · simp [h]

theorem MemeSniperAlert.mem_marks_foldl (ms : List String) (a : MemeSniperAlert) (tid : String)
    (h : tid ∈ a.triggered_tokens) :
    tid ∈ (ms.foldl MemeSniperAlert.mark_token_triggered a).triggered_tokens := by
  induction ms generalizing a with
  | nil => exact h
  | cons x xs ih => exact ih _ (a.mem_mark_mono x tid h)

theorem MemeSniperAlert.matches_token_of_triggered (a : MemeSniperAlert) (t : MemeToken)
    (now : Int) (h : t.token_id ∈ a.triggered_tokens) : a.matches_token t now = false := by
  unfold MemeSniperAlert.matches_token
  rw [if_pos h]

/-- Claim C2: once a token id is recorded in the alert's `triggered_tokens`
(via `mark_token_triggered`), every later `matches_token` call on any token
carrying that id returns false — whatever further marks happen in between and
whatever the token's other data now is. -/
theorem C2_triggered_once_never_matches_again (a : MemeSniperAlert) (tid : String)
    (ms : List String) (t : MemeToken) (now : Int) (h : t.token_id = tid) :
    (ms.foldl MemeSniperAlert.mark_token_triggered
        (a.mark_token_triggered tid)).matches_token t now = false := by
  apply MemeSniperAlert.matches_token_of_triggered
  rw [h]
  exact MemeSniperAlert.mem_marks_foldl ms _ tid (a.mem_mark_self tid)

/-- A sniper alert with no criteria configured, used as a concrete witness. -/
def sampleSniperAlert : MemeSniperAlert :=
  { user_id := 5
    alert_id := "meme_sniper_5_100"
    min_price_change := none
    min_volume_change := none
    max_market_cap := some 1000000
    chains := ["ethereum", "bsc"]
    keywords := ["doge"]
    exclude_keywords := []
    auto_buy := false
    auto_buy_amount := none
    created_at := 0
    triggered_tokens := [] }

/-- A token matching `sampleSniperAlert`, used as a concrete witness. -/
def sampleMemeToken : MemeToken :=
  { token_id := "dogeclone"
    symbol := "DOGEC"
    name := "Dogeclone"
    address := none
    chain := some "ethereum"
    price := some 2
    market_cap := some 500000
    volume_24h := none
    price_change_24h := none
    created_at := 0
    last_updated := 0
    price_history := []
    volume_history := [] }

/-- Witness for C2: after marking `dogeclone`, a later `matches_token` on a
changed token carrying that id returns false (it matched before the mark). -/
theorem C2_triggered_once_never_matches_again_witness :
    sampleSniperAlert.matches_token sampleMemeToken 0 = true ∧
    (["other"].foldl MemeSniperAlert.mark_token_triggered
        (sampleSniperAlert.mark_token_triggered "dogeclone")).matches_token
      { sampleMemeToken with market_cap := some 999999 } 0 = false :=
  ⟨by decide,
   C2_triggered_once_never_matches_again sampleSniperAlert "dogeclone" ["other"]
     { sampleMemeToken with market_cap := some 999999 } 0 rfl⟩

/-- Claim C10: with a non-empty chain allow-list, a token whose `chain` is
`None` is not rejected on the chain criterion — `matches_token` behaves exactly
as if the allow-list were absent, so the token can still match. -/
theorem C10_unknown_chain_not_rejected (a : MemeSniperAlert) (t : MemeToken) (now : Int)
    (_hchains : a.chains ≠ []) (hchain : t.chain = none) :
    a.matches_token t now = { a with chains := [] }.matches_token t now := by
  unfold MemeSniperAlert.matches_token
  simp [hchain]

/-- Witness for C10: `sampleSniperAlert` has the non-empty allow-list
`["ethereum", "bsc"]`, and the chainless variant of `sampleMemeToken` still
matches it (both sides evaluate to `true`). -/
theorem C10_unknown_chain_not_rejected_witness :
    sampleSniperAlert.chains ≠ [] ∧
    ({ sampleMemeToken with chain := none } : MemeToken).chain = none ∧
    sampleSniperAlert.matches_token { sampleMemeToken with chain := none } 0
      = { sampleSniperAlert with chains := [] }.matches_token
          { sampleMemeToken with chain := none } 0 ∧
    sampleSniperAlert.matches_token { sampleMemeToken with chain := none } 0 = true :=
  ⟨by decide, rfl,
   C10_unknown_chain_not_rejected sampleSniperAlert { sampleMemeToken with chain := none } 0
     (by decide) rfl,
   by decide⟩

/-! ## History cap invariant (claim C5) -/

theorem keepLast100_length {α : Type} (l : List α) :
    (keepLast100 l).length = min 100 l.length := by
  unfold keepLast100
  split <;> simp <;> omega

theorem keepLast100_suffix {α : Type} (l : List α) : keepLast100 l <:+ l := by
  unfold keepLast100
  split
  · exact List.drop_suffix _ _
  · exact List.suffix_refl l

theorem suffix_append_right {α : Type} {l₁ l₂ : List α} (h : l₁ <:+ l₂) (t : List α) :
    l₁ ++ t <:+ l₂ ++ t := by
  obtain ⟨p, hp⟩ := h
  exact ⟨p, by rw [← hp, List.append_assoc]⟩

/-- One append-then-trim step of `update_price` preserves the bounded-history
invariant: exact length `min 100 count`, suffix of the full entry stream
(oldest evicted first), timestamps sorted. -/
theorem keepLast_step {α : Type} (ts : α → Int) (h full : List α) (e : α)
    (hlen : h.length = min 100 full.length) (hsuf : h <:+ full)
    (hsort : List.Pairwise (fun a b => ts a ≤ ts b) h)
    (hle : ∀ a ∈ full, ts a ≤ ts e) :
    (keepLast100 (h ++ [e])).length = min 100 (full ++ [e]).length ∧
    keepLast100 (h ++ [e]) <:+ full ++ [e] ∧
    List.Pairwise (fun a b => ts a ≤ ts b) (keepLast100 (h ++ [e])) := by
  refine ⟨?_, ?_, ?_⟩
  · rw [keepLast100_length]
    simp only [List.length_append, List.length_singleton, hlen]
    omega
  · exact (keepLast100_suffix _).trans (suffix_append_right hsuf [e])
  · have hp : List.Pairwise (fun a b => ts a ≤ ts b) (h ++ [e]) := by
      rw [List.pairwise_append]
      refine ⟨hsort, List.pairwise_singleton _ _, ?_⟩
      intro a ha b hb
      rw [List.mem_singleton] at hb
      subst hb
      exact hle a (hsuf.subset ha)
    exact hp.sublist (keepLast100_suffix _).sublist

/-- One refresh-cycle update of a token, as fed to `update_price` by
`_update_existing_tokens`; `now` is the `datetime.now()` of that call. -/
structure TokenUpdate where
  now : Int
  price : ℚ
  market_cap : Option ℚ
  volume_24h : Option ℚ
  price_change_24h : Option ℚ
deriving Repr, DecidableEq

/-- The price-history entry appended by an update. -/
def TokenUpdate.priceEntry (u : TokenUpdate) : PricePoint :=
  ⟨u.now, u.price, u.price_change_24h⟩

/-- The volume-history entry appended by an update (only when a volume is
provided). -/
def TokenUpdate.volumeEntry (u : TokenUpdate) : Option VolumePoint :=
  u.volume_24h.map (fun v => ⟨u.now, v⟩)

/-- A sequence of `update_price` calls. -/
def MemeToken.applyUpdates (t : MemeToken) (us : List TokenUpdate) : MemeToken :=
  us.foldl
    (fun t u => t.update_price u.now u.price u.market_cap u.volume_24h u.price_change_24h) t

theorem MemeToken.applyUpdates_append (t : MemeToken) (us : List TokenUpdate)
    (u : TokenUpdate) :
    t.applyUpdates (us ++ [u])
      = (t.applyUpdates us).update_price u.now u.price u.market_cap u.volume_24h
          u.price_change_24h := by
  simp [MemeToken.applyUpdates, List.foldl_append]

theorem MemeToken.update_price_price_history (t : MemeToken) (now : Int) (p : ℚ)
    (mc vol pc : Option ℚ) :
    (t.update_price now p mc vol pc).price_history
      = keepLast100 (t.price_history ++ [⟨now, p, pc⟩]) := rfl

theorem MemeToken.update_price_volume_history (t : MemeToken) (now : Int) (p : ℚ)
    (mc vol pc : Option ℚ) :
    (t.update_price now p mc vol pc).volume_history
      = match vol with
        | some v => keepLast100 (t.volume_history ++ [⟨now, v⟩])
        | none => t.volume_history := rfl

/-- Claim C5: starting from a freshly created token (empty histories), after
any sequence of `update_price` calls with non-decreasing clock readings, both
histories hold at most 100 entries (exactly `min 100 count`), the surviving
entries are a suffix of the full entry stream (the oldest entries are the ones
evicted), and entries are ordered by timestamp ascending. -/
theorem C5_history_bounded_ordered (t0 : MemeToken) (us : List TokenUpdate)
    (hp : t0.price_history = []) (hv : t0.volume_history = [])
    (hmono : List.Pairwise (fun u v => u.now ≤ v.now) us) :
    ((t0.applyUpdates us).price_history.length ≤ 100 ∧
      (t0.applyUpdates us).price_history.length = min 100 us.length ∧
      (t0.applyUpdates us).price_history <:+ us.map TokenUpdate.priceEntry ∧
      List.Pairwise (fun p q => p.timestamp ≤ q.timestamp)
        (t0.applyUpdates us).price_history) ∧
    ((t0.applyUpdates us).volume_history.length ≤ 100 ∧
      (t0.applyUpdates us).volume_history.length
        = min 100 (us.filterMap TokenUpdate.volumeEntry).length ∧
      (t0.applyUpdates us).volume_history <:+ us.filterMap TokenUpdate.volumeEntry ∧
      List.Pairwise (fun p q => p.timestamp ≤ q.timestamp)
        (t0.applyUpdates us).volume_history) := by
  induction us using List.reverseRecOn with
  | nil => simp [MemeToken.applyUpdates, hp, hv]
  | append_singleton us u ih =>
    have hparts := List.pairwise_append.mp hmono
    have hmono' : List.Pairwise (fun u v => u.now ≤ v.now) us := hparts.1
    have hle : ∀ v ∈ us, v.now ≤ u.now := by
      intro v hv'
      exact hparts.2.2 v hv' u (List.mem_singleton_self u)
    obtain ⟨⟨_, hl2, hs1, hp1⟩, ⟨_, hl2v, hs1v, hp1v⟩⟩ := ih hmono'
    rw [MemeToken.applyUpdates_append]
    constructor
    · have hpe : PricePoint.mk u.now u.price u.price_change_24h = u.priceEntry := rfl
      rw [MemeToken.update_price_price_history, hpe, List.map_append, List.map_singleton]
      have hstep := keepLast_step PricePoint.timestamp
        (t0.applyUpdates us).price_history (us.map TokenUpdate.priceEntry) u.priceEntry
        (by simpa using hl2) hs1 hp1
        (by
          intro a ha
          rw [List.mem_map] at ha
          obtain ⟨v, hv', rfl⟩ := ha
          exact hle v hv')
      refine ⟨?_, ?_, hstep.2.1, hstep.2.2⟩
      · rw [hstep.1]; omega
      · rw [hstep.1]; simp
    · rw [MemeToken.update_price_volume_history]
      cases hvol : u.volume_24h with
      | none =>
        have hent : TokenUpdate.volumeEntry u = none := by
          simp [TokenUpdate.volumeEntry, hvol]
        rw [List.filterMap_append]
        simp only [List.filterMap_cons, List.filterMap_nil, hent, List.append_nil]
        exact ⟨by omega, hl2v, hs1v, hp1v⟩
      | some v =>
        have hent : TokenUpdate.volumeEntry u = some ⟨u.now, v⟩ := by
          simp [TokenUpdate.volumeEntry, hvol]
        have hstep := keepLast_step VolumePoint.timestamp
          (t0.applyUpdates us).volume_history (us.filterMap TokenUpdate.volumeEntry)
          ⟨u.now, v⟩ hl2v hs1v hp1v
          (by
            intro a ha
            rw [List.mem_filterMap] at ha
            obtain ⟨w, hw, hwa⟩ := ha
            have : a.timestamp = w.now := by
              simp only [TokenUpdate.volumeEntry, Option.map_eq_some'] at hwa
              obtain ⟨x, _, rfl⟩ := hwa
              rfl
            rw [this]
            exact hle w hw)
        rw [List.filterMap_append]
        simp only [List.filterMap_cons, List.filterMap_nil, hent, List.append_nil]
        refine ⟨?_, ?_, hstep.2.1, hstep.2.2⟩
        · rw [hstep.1]; omega
        · rw [hstep.1]

/-- A concrete update sequence (the middle one without a volume figure). -/
def sampleUpdates : List TokenUpdate :=
  [⟨10, 1, some 1000, some 50, none⟩,
   ⟨20, 2, none, none, some 5⟩,
   ⟨30, 3, some 1200, some 80, some 7⟩]

/-- Witness for C5: the invariant instantiated on `sampleMemeToken` and
`sampleUpdates`. -/
theorem C5_history_bounded_ordered_witness :
    ((sampleMemeToken.applyUpdates sampleUpdates).price_history.length ≤ 100 ∧
      (sampleMemeToken.applyUpdates sampleUpdates).price_history.length
        = min 100 sampleUpdates.length ∧
      (sampleMemeToken.applyUpdates sampleUpdates).price_history
        <:+ sampleUpdates.map TokenUpdate.priceEntry ∧
      List.Pairwise (fun p q => p.timestamp ≤ q.timestamp)
        (sampleMemeToken.applyUpdates sampleUpdates).price_history) ∧
    ((sampleMemeToken.applyUpdates sampleUpdates).volume_history.length ≤ 100 ∧
      (sampleMemeToken.applyUpdates sampleUpdates).volume_history.length
        = min 100 (sampleUpdates.filterMap TokenUpdate.volumeEntry).length ∧
      (sampleMemeToken.applyUpdates sampleUpdates).volume_history
        <:+ sampleUpdates.filterMap TokenUpdate.volumeEntry ∧
      List.Pairwise (fun p q => p.timestamp ≤ q.timestamp)
        (sampleMemeToken.applyUpdates sampleUpdates).volume_history) :=
  C5_history_bounded_ordered sampleMemeToken sampleUpdates rfl rfl (by decide)

/-! ## Price-change lookup (claim C6) -/

theorem getLast?_max_of_pairwise {α : Type} (R : α → α → Prop) :
    ∀ (l : List α), List.Pairwise R l → ∀ b, l.getLast? = some b →
      ∀ a ∈ l, a = b ∨ R a b := by
  intro l
  induction l with
  | nil => intro _ b hb; simp at hb
  | cons x xs ih =>
    intro hp b hb a ha
    cases xs with
    | nil =>
      simp at hb ha
      subst hb
      exact Or.inl ha
    | cons y ys =>
      rw [List.getLast?_cons_cons] at hb
      have hmem : b ∈ y :: ys := List.mem_of_getLast?_eq_some hb
      rcases List.mem_cons.mp ha with rfl | hmem'
      · exact Or.inr ((List.pairwise_cons.mp hp).1 b hmem)
      · exact ih (List.pairwise_cons.mp hp).2 b hb a hmem'

/-- Claim C6: `calculate_price_change` uses the most recent history sample
strictly older than `now - minutes`, returns `None` when no such sample
exists, and in that case `matches_token` treats a configured
`min_price_change` criterion as unmet (returns false). -/
theorem C6_price_change_most_recent_sample (a : MemeSniperAlert) (t : MemeToken)
    (now minutes : Int) :
    ((∀ p ∈ t.price_history, ¬ p.timestamp < now - minutes * 60) →
      t.calculate_price_change now minutes = none) ∧
    (List.Pairwise (fun p q => p.timestamp ≤ q.timestamp) t.price_history →
      2 ≤ t.price_history.length →
      ∀ cp, t.price = some cp →
      ∀ w ∈ t.price_history, w.timestamp < now - minutes * 60 →
      ∃ q ∈ t.price_history,
        q.timestamp < now - minutes * 60 ∧
        (∀ p ∈ t.price_history, p.timestamp < now - minutes * 60 → p.timestamp ≤ q.timestamp) ∧
        t.calculate_price_change now minutes
          = (if q.price = 0 then none else some ((cp - q.price) / q.price * 100))) ∧
    (∀ m, a.min_price_change = some m → t.calculate_price_change now 5 = none →
      a.matches_token t now = false) := by
  refine ⟨?_, ?_, ?_⟩
  · intro hnone
    unfold MemeToken.calculate_price_change
    split
    · rfl
    · have hfl : t.price_history.filter (fun p => decide (p.timestamp < now - minutes * 60))
          = [] := by
        rw [List.filter_eq_nil_iff]
        intro p hp
        simpa using hnone p hp
      simp [hfl]
  · intro hsort hlen cp hcp w hw hwt
    have hwf : w ∈ t.price_history.filter
        (fun p => decide (p.timestamp < now - minutes * 60)) :=
      List.mem_filter.mpr ⟨hw, by simpa using hwt⟩
    have hne : t.price_history.filter (fun p => decide (p.timestamp < now - minutes * 60))
        ≠ [] := by
      intro h0
      rw [h0] at hwf
      exact absurd hwf (List.not_mem_nil w)
    obtain ⟨b, hb⟩ : ∃ b, (t.price_history.filter
        (fun p => decide (p.timestamp < now - minutes * 60))).getLast? = some b := by
      cases hg : (t.price_history.filter
          (fun p => decide (p.timestamp < now - minutes * 60))).getLast? with
      | none => exact absurd (List.getLast?_eq_none_iff.mp hg) hne
      | some c => exact ⟨c, rfl⟩
    have hbf := List.mem_of_getLast?_eq_some hb
    have hbmem : b ∈ t.price_history := (List.mem_filter.mp hbf).1
    have hbt : b.timestamp < now - minutes * 60 := by
      simpa using (List.mem_filter.mp hbf).2
    refine ⟨b, hbmem, hbt, ?_, ?_⟩
    · intro p hp hpt
      have hpf : p ∈ t.price_history.filter
          (fun p => decide (p.timestamp < now - minutes * 60)) :=
        List.mem_filter.mpr ⟨hp, by simpa using hpt⟩
      have hpw : List.Pairwise (fun p q : PricePoint => p.timestamp ≤ q.timestamp)
          (t.price_history.filter (fun p => decide (p.timestamp < now - minutes * 60))) :=
        hsort.sublist (List.filter_sublist _)
      rcases getLast?_max_of_pairwise _ _ hpw b hb p hpf with rfl | hle
      · exact le_refl _
      · exact hle
    · unfold MemeToken.calculate_price_change
      rw [if_neg (by omega)]
      simp only [hb, hcp, Option.getD_some]
  · intro m hm hnone
    unfold MemeSniperAlert.matches_token
    rw [hm, hnone]
    simp

/-- A token with two history samples, both strictly older than the 5-minute
cutoff at `now = 400`, used as a concrete witness. -/
def sampleToken6 : MemeToken :=
  { sampleMemeToken with
    price := some 3
    price_history := [⟨0, 1, none⟩, ⟨50, 2, none⟩] }

/-- Witness for C6: on `sampleToken6` at `now = 400` the most recent sample
older than the window is found (part two of the claim theorem), and on a
history-less token a configured `min_price_change` makes `matches_token`
false (part three). -/
theorem C6_price_change_most_recent_sample_witness :
    (∃ q ∈ sampleToken6.price_history,
      q.timestamp < 400 - 5 * 60 ∧
      (∀ p ∈ sampleToken6.price_history,
        p.timestamp < 400 - 5 * 60 → p.timestamp ≤ q.timestamp) ∧
      sampleToken6.calculate_price_change 400 5
        = (if q.price = 0 then none else some ((3 - q.price) / q.price * 100))) ∧
    ({ sampleSniperAlert with min_price_change := some 1 } : MemeSniperAlert).matches_token
      sampleMemeToken 400 = false :=
  ⟨(C6_price_change_most_recent_sample sampleSniperAlert sampleToken6 400 5).2.1
      (by decide) (by decide) 3 rfl ⟨50, 2, none⟩ (by decide) (by decide),
   (C6_price_change_most_recent_sample
      { sampleSniperAlert with min_price_change := some 1 } sampleMemeToken 400 5).2.2
      1 rfl (by decide)⟩

/-! ## Strategy engine (`utils/strategies.py`) -/

/-- The `TradingSignal` enum. -/
inductive TradingSignal
  | buy
  | sell
  | hold
deriving Repr, DecidableEq

/-- `SMAStrategy.calculate_sma`: empty result when there are fewer prices than
the period, otherwise one window sum divided by the period per start index
(`sum(prices[i:i+period]) / period` for `i in range(len(prices)-period+1)`). -/
def calculate_sma (prices : List ℚ) (period : Nat) : List ℚ :=
  if prices.length < period then []
  else (List.range (prices.length - period + 1)).map
    (fun i => ((prices.drop i).take period).sum / (period : ℚ))

theorem calculate_sma_length (prices : List ℚ) (period : Nat) (h : period ≤ prices.length) :
    (calculate_sma prices period).length = prices.length - period + 1 := by
  unfold calculate_sma
  rw [if_neg (by omega)]
  simp

theorem calculate_sma_getD (prices : List ℚ) (period i : Nat) (hp : period ≤ prices.length)
    (hi : i < prices.length - period + 1) :
    (calculate_sma prices period).getD i 0
      = ((prices.drop i).take period).sum / (period : ℚ) := by
  unfold calculate_sma
  rw [if_neg (by omega)]
  rw [List.getD_eq_getElem?_getD, List.getElem?_map, List.getElem?_range hi]
  rfl

/-- Claim C3: `calculate_sma` returns the empty list when there are fewer
prices than the period; for `0 < period ≤ len(prices)` it returns
`len(prices) - period + 1` values, the `i`-th being the arithmetic mean of
the window `prices[i..i+period-1]` (each window has exactly `period`
elements). -/
theorem C3_calculate_sma_spec (prices : List ℚ) (period : Nat) (_hpos : 0 < period) :
    (prices.length < period → calculate_sma prices period = []) ∧
    (period ≤ prices.length →
      (calculate_sma prices period).length = prices.length - period + 1 ∧
      ∀ i, i < (calculate_sma prices period).length →
        ((prices.drop i).take period).length = period ∧
        (calculate_sma prices period).getD i 0
          = ((prices.drop i).take period).sum / (period : ℚ)) := by
  refine ⟨?_, ?_⟩
  · intro h
    unfold calculate_sma
    rw [if_pos h]
  · intro h
    refine ⟨calculate_sma_length prices period h, ?_⟩
    intro i hi
    rw [calculate_sma_length prices period h] at hi
    refine ⟨?_, calculate_sma_getD prices period i h hi⟩
    rw [List.length_take, List.length_drop]
    omega

/-- Witness for C3 on concrete data: `calculate_sma [1,2,3,4] 2` has length 3
and window means, and a too-short list yields `[]`. -/
theorem C3_calculate_sma_spec_witness :
    (calculate_sma ([1] : List ℚ) 2 = []) ∧
    ((calculate_sma ([1, 2, 3, 4] : List ℚ) 2).length = [1, 2, 3, 4].length - 2 + 1 ∧
      ∀ i, i < (calculate_sma ([1, 2, 3, 4] : List ℚ) 2).length →
        ((([1, 2, 3, 4] : List ℚ).drop i).take 2).length = 2 ∧
        (calculate_sma ([1, 2, 3, 4] : List ℚ) 2).getD i 0
          = ((([1, 2, 3, 4] : List ℚ).drop i).take 2).sum / (2 : ℚ)) :=
  ⟨(C3_calculate_sma_spec [1] 2 (by decide)).1 (by decide),
   (C3_calculate_sma_spec [1, 2, 3, 4] 2 (by decide)).2 (by decide)⟩

/-- One OHLCV candle, as returned by the historical-data collaborator;
`analyze` reads only `close` (`float(candle['close'])`). -/
structure Candle where
  open_ : ℚ
  high : ℚ
  low : ℚ
  close : ℚ
  volume : ℚ
deriving Repr, DecidableEq

/-- The state of an `SMAStrategy` (name, market, the validated parameters,
and the mutable `last_signal` / `last_update` pair). -/
structure SMAStrategy where
  name : String
  symbol : String
  exchange : String
  short_period : Nat
  long_period : Nat
  timeframe : String
  last_signal : TradingSignal
  last_update : Option Int
deriving Repr, DecidableEq

/-- `SMAStrategy.analyze`.  The candle list is the result of the
`get_historical_data(exchange, timeframe, long_period + 10)` collaborator
call; `now` is `datetime.now()`.  Returns the signal together with the updated
strategy object (`last_signal` / `last_update` are written only on the path
that reaches the crossover comparison, exactly as in the source; the early
insufficient-data returns leave the object untouched).  The source's unused
local `offset` is dropped.  The `getD` defaults are unreachable: the guards
ensure both series have at least two values. -/
def SMAStrategy.analyze (s : SMAStrategy) (candles : List Candle) (now : Int) :
    TradingSignal × SMAStrategy :=
  if candles = [] ∨ candles.length < s.long_period + 2 then (TradingSignal.hold, s)
  else
    let close_prices := candles.map Candle.close
    let short_sma := calculate_sma close_prices s.short_period
    let long_sma := calculate_sma close_prices s.long_period
    if short_sma = [] ∨ long_sma = [] then (TradingSignal.hold, s)
    else if short_sma.length < 2 ∨ long_sma.length < 2 then (TradingSignal.hold, s)
    else
      let current_short := short_sma.getD (short_sma.length - 1) 0
      let current_long := long_sma.getD (long_sma.length - 1) 0
      let prev_short := short_sma.getD (short_sma.length - 2) 0
      let prev_long := long_sma.getD (long_sma.length - 2) 0
      let signal :=
        if prev_short ≤ prev_long ∧ current_short > current_long then TradingSignal.buy
        else if prev_short ≥ prev_long ∧ current_short < current_long then TradingSignal.sell
        else TradingSignal.hold
      (signal, { s with last_signal := signal, last_update := some now })

theorem calculate_sma_getD_last (prices : List ℚ) (period : Nat) (h : period ≤ prices.length) :
    (calculate_sma prices period).getD ((calculate_sma prices period).length - 1) 0
      = ((prices.drop (prices.length - period)).take period).sum / (period : ℚ) := by
  rw [calculate_sma_length _ _ h]
  have h1 : prices.length - period + 1 - 1 = prices.length - period := by omega
  rw [h1]
  exact calculate_sma_getD _ _ _ h (by omega)

theorem calculate_sma_getD_prev (prices : List ℚ) (period : Nat)
    (h : period + 1 ≤ prices.length) :
    (calculate_sma prices period).getD ((calculate_sma prices period).length - 2) 0
      = ((prices.drop (prices.length - period - 1)).take period).sum / (period : ℚ) := by
  rw [calculate_sma_length _ _ (by omega)]
  have h1 : prices.length - period + 1 - 2 = prices.length - period - 1 := by omega
  rw [h1]
  exact calculate_sma_getD _ _ _ (by omega) (by omega)

/-- Claim C4: with fewer than `long_period + 2` candles `analyze` signals HOLD
(insufficient data is not an error); with enough candles it signals BUY
exactly when the previous short-SMA value was `≤` the previous long-SMA value
and the current short-SMA value is `>` the current long-SMA value, SELL on the
opposite crossing, and HOLD otherwise — where the current values are the means
of the windows ending at the last candle and the previous values the means of
the windows ending one candle earlier (the last two aligned points of the two
series). -/
theorem C4_sma_analyze_crossover (s : SMAStrategy) (candles : List Candle) (now : Int)
    (_hshort : 0 < s.short_period) (hle : s.short_period ≤ s.long_period) :
    (candles.length < s.long_period + 2 → (s.analyze candles now).1 = TradingSignal.hold) ∧
    (s.long_period + 2 ≤ candles.length →
      (s.analyze candles now).1 =
        (let closes := candles.map Candle.close
         let curS := ((closes.drop (closes.length - s.short_period)).take s.short_period).sum
             / (s.short_period : ℚ)
         let curL := ((closes.drop (closes.length - s.long_period)).take s.long_period).sum
             / (s.long_period : ℚ)
         let prevS :=
           ((closes.drop (closes.length - s.short_period - 1)).take s.short_period).sum
             / (s.short_period : ℚ)
         let prevL :=
           ((closes.drop (closes.length - s.long_period - 1)).take s.long_period).sum
             / (s.long_period : ℚ)
         if prevS ≤ prevL ∧ curS > curL then TradingSignal.buy
         else if prevS ≥ prevL ∧ curS < curL then TradingSignal.sell
         else TradingSignal.hold)) := by
  constructor
  · intro h
    unfold SMAStrategy.analyze
    rw [if_pos (Or.inr h)]
  · intro h
    have hcl : (candles.map Candle.close).length = candles.length := List.length_map _ _
    have hsl : (calculate_sma (candles.map Candle.close) s.short_period).length
        = candles.length - s.short_period + 1 :=
      (hcl ▸ calculate_sma_length (candles.map Candle.close) s.short_period (by omega))
    have hll : (calculate_sma (candles.map Candle.close) s.long_period).length
        = candles.length - s.long_period + 1 :=
      (hcl ▸ calculate_sma_length (candles.map Candle.close) s.long_period (by omega))
    unfold SMAStrategy.analyze
    rw [if_neg (by
      rintro (rfl | hlt)
      · simp at h
      · omega)]
    simp only []
    rw [if_neg (by
      rintro (h0 | h0) <;> · have := congrArg List.length h0; simp [hsl, hll] at this)]
    rw [if_neg (by rintro (h0 | h0) <;> omega)]
    simp only [calculate_sma_getD_last (candles.map Candle.close) s.short_period
        (by omega),
      calculate_sma_getD_last (candles.map Candle.close) s.long_period (by omega),
      calculate_sma_getD_prev (candles.map Candle.close) s.short_period (by omega),
      calculate_sma_getD_prev (candles.map Candle.close) s.long_period (by omega),
      hcl]

/-- A candle whose close is `c` (the other fields are unread by `analyze`). -/
def mkCandle (c : ℚ) : Candle := ⟨c, c, c, c, 0⟩

/-- A 3/5 SMA crossover strategy. -/
def sampleStrategy : SMAStrategy :=
  { name := "sma_btc"
    symbol := "BTC/USDT"
    exchange := "btcc"
    short_period := 3
    long_period := 5
    timeframe := "1h"
    last_signal := TradingSignal.hold
    last_update := none }

/-- Closes producing a bullish crossover on the last two aligned points. -/
def sampleCandles : List Candle := List.map mkCandle [14, 13, 12, 11, 10, 10, 16]

/-- Witness for C4: two candles are insufficient data (HOLD), and on
`sampleCandles` (enough candles) the signal equals the crossover formula on
the last two aligned window means. -/
theorem C4_sma_analyze_crossover_witness :
    (sampleStrategy.analyze (List.map mkCandle [14, 13]) 0).1 = TradingSignal.hold ∧
    (sampleStrategy.analyze sampleCandles 0).1 =
      (let closes := sampleCandles.map Candle.close
       let curS := ((closes.drop (closes.length - sampleStrategy.short_period)).take
           sampleStrategy.short_period).sum / (sampleStrategy.short_period : ℚ)
       let curL := ((closes.drop (closes.length - sampleStrategy.long_period)).take
           sampleStrategy.long_period).sum / (sampleStrategy.long_period : ℚ)
       let prevS := ((closes.drop (closes.length - sampleStrategy.short_period - 1)).take
           sampleStrategy.short_period).sum / (sampleStrategy.short_period : ℚ)
       let prevL := ((closes.drop (closes.length - sampleStrategy.long_period - 1)).take
           sampleStrategy.long_period).sum / (sampleStrategy.long_period : ℚ)
       if prevS ≤ prevL ∧ curS > curL then TradingSignal.buy
       else if prevS ≥ prevL ∧ curS < curL then TradingSignal.sell
       else TradingSignal.hold) :=
  ⟨(C4_sma_analyze_crossover sampleStrategy (List.map mkCandle [14, 13]) 0 (by decide)
      (by decide)).1 (by decide),
   (C4_sma_analyze_crossover sampleStrategy sampleCandles 0 (by decide) (by decide)).2
      (by decide)⟩

/-- The strategy registry of `StrategyManager` (the `name → strategy` dict),
here populated with SMA crossover strategies; `execute_strategy` treats the
stored strategy uniformly through its `analyze` method, so the control flow is
the same for every strategy type. -/
structure StrategyManager where
  strategies : List (String × SMAStrategy)
deriving Repr, DecidableEq

/-- `StrategyManager.get_strategy` (`self.strategies.get(name)`). -/
def StrategyManager.get_strategy (m : StrategyManager) (name : String) : Option SMAStrategy :=
  m.strategies.lookup name

/-- `StrategyManager.execute_strategy`.  `getCandles` is the exchange
collaborator behind `get_historical_data(exchange, timeframe, limit)`.
Returns the value `execute_strategy` returns, the registry as it stands after
the call (the strategy object mutated by `analyze` is the one stored in the
dict), and the list of `order_callback(strategy, signal)` invocations (empty
or a single call, made only when the signal is not HOLD). -/
def StrategyManager.execute_strategy (m : StrategyManager)
    (getCandles : String → String → Nat → List Candle) (now : Int) (name : String) :
    Option TradingSignal × StrategyManager × List (SMAStrategy × TradingSignal) :=
  match m.get_strategy name with
  | none => (none, m, [])
  | some s =>
    let candles := getCandles s.exchange s.timeframe (s.long_period + 10)
    let r := s.analyze candles now
    let m' : StrategyManager :=
      ⟨m.strategies.map (fun p => if p.1 = name then (p.1, r.2) else p)⟩
    (some r.1, m',
      if r.1 = TradingSignal.hold then [] else [(r.2, r.1)])

/-- Claim C8: `execute_strategy` returns `None` for an unknown name, leaving
the registry unchanged and invoking no callback; for a registered strategy it
returns the signal produced by `analyze`, and the order callback is invoked
(with the strategy and the signal) exactly when that signal is not HOLD. -/
theorem C8_execute_strategy_callback (m : StrategyManager)
    (gc : String → String → Nat → List Candle) (now : Int) (name : String) :
    (m.get_strategy name = none → m.execute_strategy gc now name = (none, m, [])) ∧
    (∀ s, m.get_strategy name = some s →
      (m.execute_strategy gc now name).1
          = some (s.analyze (gc s.exchange s.timeframe (s.long_period + 10)) now).1 ∧
      (m.execute_strategy gc now name).2.2
          = (if (s.analyze (gc s.exchange s.timeframe (s.long_period + 10)) now).1
                = TradingSignal.hold then []
             else [((s.analyze (gc s.exchange s.timeframe (s.long_period + 10)) now).2,
                    (s.analyze (gc s.exchange s.timeframe (s.long_period + 10)) now).1)]) ∧
      ((m.execute_strategy gc now name).2.2 ≠ [] ↔
        (s.analyze (gc s.exchange s.timeframe (s.long_period + 10)) now).1
          ≠ TradingSignal.hold)) := by
  constructor
  · intro h
    unfold StrategyManager.execute_strategy
    rw [h]
  · intro s hs
    have hev : m.execute_strategy gc now name =
        (some (s.analyze (gc s.exchange s.timeframe (s.long_period + 10)) now).1,
         ⟨m.strategies.map (fun p => if p.1 = name then
             (p.1, (s.analyze (gc s.exchange s.timeframe (s.long_period + 10)) now).2)
           else p)⟩,
         if (s.analyze (gc s.exchange s.timeframe (s.long_period + 10)) now).1
             = TradingSignal.hold then []
         else [((s.analyze (gc s.exchange s.timeframe (s.long_period + 10)) now).2,
                (s.analyze (gc s.exchange s.timeframe (s.long_period + 10)) now).1)]) := by
      unfold StrategyManager.execute_strategy
      rw [hs]
    rw [hev]
    refine ⟨rfl, rfl, ?_⟩
    by_cases h0 : (s.analyze (gc s.exchange s.timeframe (s.long_period + 10)) now).1
        = TradingSignal.hold
    · simp [h0]
    · simp [h0]

/-- A registry holding the sample strategy under its name. -/
def sampleManager : StrategyManager := ⟨[("sma_btc", sampleStrategy)]⟩

/-- A candle source that always returns `sampleCandles`. -/
def sampleGetCandles : String → String → Nat → List Candle := fun _ _ _ => sampleCandles

/-- Witness for C8: executing an unknown name returns `none` with the registry
untouched and no callback; executing the registered name returns the
`analyze` signal with the callback fired exactly when it is not HOLD. -/
theorem C8_execute_strategy_callback_witness :
    sampleManager.execute_strategy sampleGetCandles 0 "missing"
        = (none, sampleManager, []) ∧
    ((sampleManager.execute_strategy sampleGetCandles 0 "sma_btc").1
        = some (sampleStrategy.analyze (sampleGetCandles sampleStrategy.exchange
            sampleStrategy.timeframe (sampleStrategy.long_period + 10)) 0).1 ∧
      (sampleManager.execute_strategy sampleGetCandles 0 "sma_btc").2.2
        = (if (sampleStrategy.analyze (sampleGetCandles sampleStrategy.exchange
              sampleStrategy.timeframe (sampleStrategy.long_period + 10)) 0).1
              = TradingSignal.hold then []
           else [((sampleStrategy.analyze (sampleGetCandles sampleStrategy.exchange
                    sampleStrategy.timeframe (sampleStrategy.long_period + 10)) 0).2,
                  (sampleStrategy.analyze (sampleGetCandles sampleStrategy.exchange
                    sampleStrategy.timeframe (sampleStrategy.long_period + 10)) 0).1)]) ∧
      ((sampleManager.execute_strategy sampleGetCandles 0 "sma_btc").2.2 ≠ [] ↔
        (sampleStrategy.analyze (sampleGetCandles sampleStrategy.exchange
            sampleStrategy.timeframe (sampleStrategy.long_period + 10)) 0).1
          ≠ TradingSignal.hold)) :=
  ⟨(C8_execute_strategy_callback sampleManager sampleGetCandles 0 "missing").1 (by decide),
   (C8_execute_strategy_callback sampleManager sampleGetCandles 0 "sma_btc").2
     sampleStrategy (by decide)⟩
